import Mathlib

/-!
# Verification of the gardener-resource-manager secret-to-ManagedResource
# mapper and target-cluster client bootstrap

Shallow embedding of:
* `pkg/controller/managedresources/mapper.go` — the `secretToManagedResourceMapper`
  translating Secret watch events into reconcile requests;
* the command file (`app` package) — `NewControllerManagerCommand`,
  `getTargetConfig`, `getTargetClient`: CLI flags, manager/controller options
  and the credential fallback chain for the target cluster.

Kubernetes client machinery (the `List` call with an `InNamespace` option,
`clientcmd.BuildConfigFromFlags`, `rest.InClusterConfig`, `os.Getenv`,
`user.Current`) is represented by explicit state: a cluster holds the list of
ManagedResources and a flag for whether listing fails; an environment record
carries the `KUBECONFIG` variable, the kubeconfig loader, the in-cluster
config and the current user lookup.
-/

namespace GRM

/-- A secret reference from a ManagedResource spec (`Spec.SecretRefs` entry);
only the `Name` field is read by the mapper. -/
structure SecretRef where
  name : String
deriving DecidableEq, Repr

/-- A ManagedResource as the mapper reads it: object metadata namespace and
name, and the `Spec.SecretRefs` list. -/
structure ManagedResource where
  ns : String
  name : String
  secretRefs : List SecretRef
deriving DecidableEq, Repr

/-- A core/v1 Secret as the mapper reads it: namespace and name. -/
structure Secret where
  ns : String
  name : String
deriving DecidableEq, Repr

/-- A reconcile request (`reconcile.Request` / `types.NamespacedName`). -/
structure Request where
  ns : String
  name : String
deriving DecidableEq, Repr

/-- The event object handed to `Map` (`handler.MapObject`): the `Object` field
may be nil, a Secret, or some other kind of object. -/
inductive MapObject where
  | noObject : MapObject
  | otherObject : MapObject
  | secretObject : Secret → MapObject
deriving DecidableEq, Repr

/-- The source cluster as seen through `client.Client`: the stored
ManagedResources, and whether the `List` call fails. -/
structure ClusterState where
  managedResources : List ManagedResource
  listFails : Bool
deriving Repr

/-- `client.List(ctx, client.InNamespace(ns), list)`: on success returns
exactly the stored ManagedResources whose metadata namespace is `ns`
(the documented contract of the `InNamespace` list option). -/
def listInNamespace (st : ClusterState) (ns : String) :
    Except String (List ManagedResource) :=
  if st.listFails then .error "list failed"
  else .ok (st.managedResources.filter (fun mr => mr.ns == ns))

/-- Modelled from the documented contract of the external
`gardener-extensions` helper `extensionscontroller.EvalGenericPredicate`:
it returns true iff every predicate in the list accepts the object. -/
def EvalGenericPredicate (mr : ManagedResource)
    (preds : List (ManagedResource → Bool)) : Bool :=
  preds.all (fun p => p mr)

/-- `secretToManagedResourceMapper.Map` (mapper.go lines 36–69): nil object
and non-Secret objects yield nil; a List error yields nil; otherwise one
request is appended per secret reference whose name equals the Secret's name,
for each listed ManagedResource passing the predicate set. -/
def Map (preds : List (ManagedResource → Bool)) (st : ClusterState)
    (obj : MapObject) : List Request :=
  match obj with
  | .noObject => []
  | .otherObject => []
  | .secretObject s =>
    match listInNamespace st s.ns with
    | .error _ => []
    | .ok items =>
      items.flatMap (fun mr =>
        if EvalGenericPredicate mr preds then
          mr.secretRefs.filterMap (fun ref =>
            if ref.name == s.name then
              some { ns := mr.ns, name := mr.name }
            else none)
        else [])

/-- The predicate list the command passes to `SecretToManagedResourceMapper`
for the Secret watch (`nil`, command file line 107). -/
def secretWatchPredicates : List (ManagedResource → Bool) := []

/-- A `rest.Config` as this program reads and writes it: an identifying host
(standing for the credential data a kubeconfig or in-cluster source yields)
and the client-side rate-limit fields `QPS` and `Burst` that
`getTargetClient` mutates. -/
structure RestConfig where
  host : String
  qps : Nat
  burst : Nat
deriving DecidableEq, Repr

/-- The process environment seen by `getTargetConfig`: the value of the
`KUBECONFIG` variable (empty when unset), the kubeconfig loader
`clientcmd.BuildConfigFromFlags` applied to a path, the result of
`rest.InClusterConfig`, and the home directory from `user.Current`. -/
structure ConfigEnv where
  kubeconfigEnvVar : String
  buildConfigFromFlags : String → Except String RestConfig
  inClusterConfig : Except String RestConfig
  currentUserHome : Except String String

/-- `getTargetConfig` (command file lines 133–149): a non-empty explicit path
is terminal (its config or error is returned); otherwise a non-empty
`KUBECONFIG` variable is terminal; otherwise in-cluster config is tried, and
on its failure the current user's `~/.kube/config`; if those fail too the
fixed error "could not create config for cluster" is returned. -/
def getTargetConfig (e : ConfigEnv) (kubeconfigPath : String) :
    Except String RestConfig :=
  if 0 < kubeconfigPath.length then
    e.buildConfigFromFlags kubeconfigPath
  else if 0 < e.kubeconfigEnvVar.length then
    e.buildConfigFromFlags e.kubeconfigEnvVar
  else
    match e.inClusterConfig with
    | .ok c => .ok c
    | .error _ =>
      match e.currentUserHome with
      | .ok home =>
        match e.buildConfigFromFlags (home ++ "/.kube/config") with
        | .ok c => .ok c
        | .error _ => .error "could not create config for cluster"
      | .error _ => .error "could not create config for cluster"

/-- `getTargetClient` (command file lines 151–161): resolve the target config,
propagate its error, and otherwise set `QPS := 100` and `Burst := 130` before
handing the config to `client.New`; the created client is represented by the
config it is built from. -/
def getTargetClient (e : ConfigEnv) (kubeconfigPath : String) :
    Except String RestConfig :=
  match getTargetConfig e kubeconfigPath with
  | .error err => .error err
  | .ok c => .ok { c with qps := 100, burst := 130 }

/-- Modelled from the spec: "credentials supplied via kubeconfig path,
in-cluster config, or environment variable, in that fallback order" — the
comparison definition for the claimed source order, trying the explicit path,
then in-cluster config, then the `KUBECONFIG` environment variable. -/
def getTargetConfigSpecOrder (e : ConfigEnv) (kubeconfigPath : String) :
    Except String RestConfig :=
  if 0 < kubeconfigPath.length then
    e.buildConfigFromFlags kubeconfigPath
  else
    match e.inClusterConfig with
    | .ok c => .ok c
    | .error _ =>
      if 0 < e.kubeconfigEnvVar.length then
        e.buildConfigFromFlags e.kubeconfigEnvVar
      else
        .error "could not create config for cluster"

/-- Default value recorded for a registered CLI flag. -/
inductive FlagDefault where
  | boolD : Bool → FlagDefault
  | stringD : String → FlagDefault
  | durationMinutesD : Nat → FlagDefault
  | intD : Int → FlagDefault
deriving DecidableEq, Repr

/-- The flag registrations of `NewControllerManagerCommand` (command file
lines 123–128), in registration order, with their default values. -/
def registeredFlags : List (String × FlagDefault) :=
  [("leader-election", .boolD true),
   ("leader-election-namespace", .stringD ""),
   ("sync-period", .durationMinutesD 1),
   ("target-kubeconfig", .stringD ""),
   ("max-concurrent-workers", .intD 10),
   ("namespace", .stringD "")]

/-- The values the six CLI flags are parsed into. -/
structure Flags where
  leaderElection : Bool
  leaderElectionNamespace : String
  syncPeriod : Nat
  targetKubeconfigPath : String
  maxConcurrentWorkers : Int
  namespaceFlag : String
deriving DecidableEq, Repr

/-- The `manager.Options` the command constructs (command file lines 62–68). -/
structure ManagerOptions where
  leaderElection : Bool
  leaderElectionID : String
  leaderElectionNamespace : String
  syncPeriod : Nat
  nsOpt : String
deriving DecidableEq, Repr

/-- `manager.New` options as built from the parsed flags. -/
def managerOptions (f : Flags) : ManagerOptions :=
  { leaderElection := f.leaderElection
    leaderElectionID := "gardener-resource-manager"
    leaderElectionNamespace := f.leaderElectionNamespace
    syncPeriod := f.syncPeriod
    nsOpt := f.namespaceFlag }

/-- The `controller.Options` the command constructs (command file lines
82–91). -/
structure ControllerOptions where
  maxConcurrentReconciles : Int
deriving DecidableEq, Repr

/-- `controller.New` options as built from the parsed flags. -/
def controllerOptions (f : Flags) : ControllerOptions :=
  { maxConcurrentReconciles := f.maxConcurrentWorkers }

/-- The requests appended for one ManagedResource are all identical, so the
inner loop over secret references produces a replicated request list. -/
theorem filterMap_if_eq_replicate (l : List SecretRef) (n : String) (c : Request) :
    l.filterMap (fun ref => if ref.name == n then some c else none) =
      List.replicate ((l.filter (fun ref => ref.name == n)).length) c := by
  induction l with
  | nil => rfl
  | cons x xs ih =>
    by_cases hx : (x.name == n) = true
    · rw [List.filterMap_cons_some (by rw [if_pos hx]),
        List.filter_cons, if_pos hx, List.length_cons, List.replicate_succ, ih]
    · rw [List.filterMap_cons_none (by rw [if_neg hx]),
        List.filter_cons, if_neg hx, ih]

/-- On a successful List, `Map` is the concatenation, over the in-namespace
ManagedResources passing the predicate set, of one request per matching
secret reference. -/
theorem Map_eq_flatMap (preds : List (ManagedResource → Bool)) (st : ClusterState)
    (s : Secret) (h : st.listFails = false) :
    Map preds st (.secretObject s) =
      (st.managedResources.filter (fun mr => mr.ns == s.ns)).flatMap (fun mr =>
        if EvalGenericPredicate mr preds then
          List.replicate
            ((mr.secretRefs.filter (fun ref => ref.name == s.name)).length)
            ⟨mr.ns, mr.name⟩
        else []) := by
  unfold Map listInNamespace
  rw [h]
  simp only [Bool.false_eq_true, if_false]
  congr 1
  funext mr
  by_cases hp : EvalGenericPredicate mr preds = true
  · rw [if_pos hp, if_pos hp, filterMap_if_eq_replicate]
  · rw [if_neg hp, if_neg hp]

/-- Membership characterisation of the request list produced by `Map` on a
Secret event when the List call succeeds. -/
theorem mem_Map_iff (preds : List (ManagedResource → Bool)) (st : ClusterState)
    (s : Secret) (r : Request) (h : st.listFails = false) :
    r ∈ Map preds st (.secretObject s) ↔
      ∃ mr, mr ∈ st.managedResources ∧ mr.ns = s.ns ∧
        EvalGenericPredicate mr preds = true ∧
        (∃ ref, ref ∈ mr.secretRefs ∧ ref.name = s.name) ∧
        r = ⟨mr.ns, mr.name⟩ := by
  rw [Map_eq_flatMap preds st s h]
  simp only [List.mem_flatMap, List.mem_filter]
  constructor
  · rintro ⟨mr, ⟨hmem, hns⟩, hr⟩
    by_cases hp : EvalGenericPredicate mr preds = true
    · rw [if_pos hp, List.mem_replicate] at hr
      refine ⟨mr, hmem, by simpa using hns, hp, ?_, hr.2⟩
      have hne : mr.secretRefs.filter (fun ref => ref.name == s.name) ≠ [] := by
        intro hnil
        exact hr.1 (by rw [hnil]; rfl)
      obtain ⟨ref, hrefmem⟩ := List.exists_mem_of_ne_nil _ hne
      rw [List.mem_filter] at hrefmem
      exact ⟨ref, hrefmem.1, by simpa using hrefmem.2⟩
    · rw [if_neg hp] at hr
      cases hr
  · rintro ⟨mr, hmem, hns, hp, ⟨ref, hrefmem, hrefname⟩, hreq⟩
    refine ⟨mr, ⟨hmem, by simpa using hns⟩, ?_⟩
    rw [if_pos hp, List.mem_replicate]
    refine ⟨?_, hreq⟩
    intro hlen0
    rw [List.length_eq_zero] at hlen0
    have : ref ∈ mr.secretRefs.filter (fun ref => ref.name == s.name) :=
      List.mem_filter.mpr ⟨hrefmem, by simpa using hrefname⟩
    rw [hlen0] at this
    cases this

/-- Counting requests: `count` distributes over the concatenated per-resource
request lists. -/
theorem count_flatMap_requests (f : ManagedResource → List Request) (r : Request) :
    ∀ l : List ManagedResource,
      ((l.flatMap f).count r) = (l.map (fun x => (f x).count r)).sum := by
  intro l
  induction l with
  | nil => rfl
  | cons x xs ih => simp [List.flatMap_cons, List.count_append, ih]

/-- Closed form for the multiplicity of a request in `Map`'s output. -/
theorem count_Map (preds : List (ManagedResource → Bool)) (st : ClusterState)
    (s : Secret) (r : Request) (h : st.listFails = false) :
    (Map preds st (.secretObject s)).count r =
      (st.managedResources.map (fun x =>
        if x.ns = s.ns ∧ EvalGenericPredicate x preds = true ∧ r = ⟨x.ns, x.name⟩
        then (x.secretRefs.filter (fun ref => ref.name == s.name)).length
        else 0)).sum := by
  rw [Map_eq_flatMap preds st s h, count_flatMap_requests]
  induction st.managedResources with
  | nil => rfl
  | cons x xs ih =>
    rw [List.filter_cons]
    by_cases hns : x.ns = s.ns
    · rw [if_pos (by simpa using hns)]
      rw [List.map_cons, List.map_cons, List.sum_cons, List.sum_cons, ih]
      congr 1
      by_cases hp : EvalGenericPredicate x preds = true
      · rw [if_pos hp, List.count_replicate]
        by_cases hr : r = ⟨x.ns, x.name⟩
        · rw [if_pos (by rw [hr]; exact beq_self_eq_true _), if_pos ⟨hns, hp, hr⟩]
        · have hne : ¬((⟨x.ns, x.name⟩ : Request) == r) = true := by
            intro hbeq
            exact hr (beq_iff_eq.mp hbeq).symm
          rw [if_neg hne, if_neg (by simp [hr])]
      · rw [if_neg hp, if_neg (by simp [hp])]
        rfl
    · rw [if_neg (by simpa using hns), List.map_cons, List.sum_cons, ih,
        if_neg (by simp [hns]), Nat.zero_add]

/-- If no element of `l` has the identity of `mr`, the per-element
contributions to the multiplicity of `mr`'s request all vanish. -/
theorem sum_contrib_zero_of_filter_nil (preds : List (ManagedResource → Bool))
    (s : Secret) (mr : ManagedResource) :
    ∀ l : List ManagedResource,
      l.filter (fun x => x.ns == mr.ns && x.name == mr.name) = [] →
      (l.map (fun x =>
        if x.ns = s.ns ∧ EvalGenericPredicate x preds = true ∧
            (⟨mr.ns, mr.name⟩ : Request) = ⟨x.ns, x.name⟩
        then (x.secretRefs.filter (fun ref => ref.name == s.name)).length
        else 0)).sum = 0 := by
  intro l
  induction l with
  | nil => intro _; rfl
  | cons x xs ih =>
    intro hnil
    rw [List.filter_cons] at hnil
    by_cases hx : (x.ns == mr.ns && x.name == mr.name) = true
    · rw [if_pos hx] at hnil
      cases hnil
    · rw [if_neg hx] at hnil
      rw [List.map_cons, List.sum_cons, ih hnil, Nat.add_zero]
      rw [if_neg]
      rintro ⟨-, -, hreq⟩
      apply hx
      have h1 : mr.ns = x.ns := congrArg Request.ns hreq
      have h2 : mr.name = x.name := congrArg Request.name hreq
      simp [h1, h2]

/-- When `mr` is the unique ManagedResource with its identity in the list, the
total multiplicity of its request equals its own matching-reference count. -/
theorem sum_contrib_of_filter_singleton (preds : List (ManagedResource → Bool))
    (s : Secret) (mr : ManagedResource) (hns : mr.ns = s.ns)
    (hpred : EvalGenericPredicate mr preds = true) :
    ∀ l : List ManagedResource,
      l.filter (fun x => x.ns == mr.ns && x.name == mr.name) = [mr] →
      (l.map (fun x =>
        if x.ns = s.ns ∧ EvalGenericPredicate x preds = true ∧
            (⟨mr.ns, mr.name⟩ : Request) = ⟨x.ns, x.name⟩
        then (x.secretRefs.filter (fun ref => ref.name == s.name)).length
        else 0)).sum =
      (mr.secretRefs.filter (fun ref => ref.name == s.name)).length := by
  intro l
  induction l with
  | nil => intro hident; cases hident
  | cons x xs ih =>
    intro hident
    rw [List.filter_cons] at hident
    by_cases hx : (x.ns == mr.ns && x.name == mr.name) = true
    · rw [if_pos hx] at hident
      injection hident with hx1 hx2
      subst hx1
      rw [List.map_cons, List.sum_cons,
        sum_contrib_zero_of_filter_nil preds s x xs hx2, Nat.add_zero,
        if_pos ⟨hns, hpred, rfl⟩]
    · rw [if_neg hx] at hident
      rw [List.map_cons, List.sum_cons, ih hident]
      have hx0 : (if x.ns = s.ns ∧ EvalGenericPredicate x preds = true ∧
          (⟨mr.ns, mr.name⟩ : Request) = ⟨x.ns, x.name⟩
        then (x.secretRefs.filter (fun ref => ref.name == s.name)).length
        else 0) = 0 := by
        rw [if_neg]
        rintro ⟨-, -, hreq⟩
        apply hx
        have h1 : mr.ns = x.ns := congrArg Request.ns hreq
        have h2 : mr.name = x.name := congrArg Request.name hreq
        simp [h1, h2]
      rw [hx0, Nat.zero_add]

/-- C1: with the predicate list the command registers for the Secret watch
(nil), `Map` returns exactly the reconcile requests for the ManagedResources
that live in the changed Secret's namespace and whose spec secret references
contain the Secret's name: a request is in the output iff such a
ManagedResource produces it, so no other-namespace and no non-referencing
ManagedResource ever yields a request. -/
theorem secret_event_requests_exact (st : ClusterState) (s : Secret) (r : Request)
    (h : st.listFails = false) :
    r ∈ Map secretWatchPredicates st (.secretObject s) ↔
      ∃ mr, mr ∈ st.managedResources ∧ mr.ns = s.ns ∧
        (∃ ref, ref ∈ mr.secretRefs ∧ ref.name = s.name) ∧
        r = ⟨mr.ns, mr.name⟩ := by
  rw [mem_Map_iff secretWatchPredicates st s r h]
  constructor
  · rintro ⟨mr, h1, h2, -, h4, h5⟩
    exact ⟨mr, h1, h2, h4, h5⟩
  · rintro ⟨mr, h1, h2, h4, h5⟩
    exact ⟨mr, h1, h2, rfl, h4, h5⟩

theorem secret_event_requests_exact_witness :
    (⟨"ns1", "mr1"⟩ : Request) ∈
      Map secretWatchPredicates ⟨[⟨"ns1", "mr1", [⟨"s1"⟩]⟩], false⟩
        (.secretObject ⟨"ns1", "s1"⟩) :=
  (secret_event_requests_exact ⟨[⟨"ns1", "mr1", [⟨"s1"⟩]⟩], false⟩ ⟨"ns1", "s1"⟩
      ⟨"ns1", "mr1"⟩ rfl).mpr
    ⟨⟨"ns1", "mr1", [⟨"s1"⟩]⟩, List.mem_singleton.mpr rfl, rfl,
      ⟨⟨"s1"⟩, List.mem_singleton.mpr rfl, rfl⟩, rfl⟩

/-- C4: a ManagedResource failing any predicate of the mapper's predicate set
contributes no request (assuming, as Kubernetes guarantees, that its
namespace/name identity is unique in the cluster), and a ManagedResource
passing every predicate that references the changed Secret in its namespace
does yield a request. -/
theorem predicate_gates_requests (preds : List (ManagedResource → Bool))
    (st : ClusterState) (s : Secret) (mr : ManagedResource)
    (h : st.listFails = false)
    (huniq : ∀ mr', mr' ∈ st.managedResources → mr'.ns = mr.ns →
      mr'.name = mr.name → mr' = mr) :
    (∀ p, p ∈ preds → p mr = false →
      (⟨mr.ns, mr.name⟩ : Request) ∉ Map preds st (.secretObject s)) ∧
    (mr ∈ st.managedResources → mr.ns = s.ns →
      EvalGenericPredicate mr preds = true →
      (∃ ref, ref ∈ mr.secretRefs ∧ ref.name = s.name) →
      (⟨mr.ns, mr.name⟩ : Request) ∈ Map preds st (.secretObject s)) := by
  constructor
  · intro p hp hpmr hmem
    rw [mem_Map_iff preds st s _ h] at hmem
    obtain ⟨mr', hmem', hns', hpred', -, heq⟩ := hmem
    have h1 : mr'.ns = mr.ns := (congrArg Request.ns heq).symm
    have h2 : mr'.name = mr.name := (congrArg Request.name heq).symm
    have hmr : mr' = mr := huniq mr' hmem' h1 h2
    rw [hmr] at hpred'
    have : p mr = true := List.all_eq_true.mp hpred' p hp
    rw [hpmr] at this
    cases this
  · intro hmem hns hpred href
    exact (mem_Map_iff preds st s _ h).mpr ⟨mr, hmem, hns, hpred, href, rfl⟩

theorem predicate_gates_requests_witness :
    (⟨"nsA", "mrA"⟩ : Request) ∉
      Map [fun _ => false] ⟨[⟨"nsA", "mrA", [⟨"sA"⟩]⟩], false⟩
        (.secretObject ⟨"nsA", "sA"⟩) :=
  (predicate_gates_requests [fun _ => false] ⟨[⟨"nsA", "mrA", [⟨"sA"⟩]⟩], false⟩
      ⟨"nsA", "sA"⟩ ⟨"nsA", "mrA", [⟨"sA"⟩]⟩ rfl
      (fun _ hm _ _ => List.mem_singleton.mp hm)).1
    (fun _ => false) (List.mem_singleton.mpr rfl) rfl

/-- C8: `Map` is total and signals no failure: a nil event object, a
non-Secret event object, and a failing List call all produce the empty
request list. -/
theorem map_total_swallows_errors (preds : List (ManagedResource → Bool))
    (st : ClusterState) (s : Secret) :
    Map preds st .noObject = [] ∧ Map preds st .otherObject = [] ∧
    (st.listFails = true → Map preds st (.secretObject s) = []) := by
  refine ⟨rfl, rfl, fun h => ?_⟩
  unfold Map listInNamespace
  rw [h]
  rfl

theorem map_total_swallows_errors_witness :
    Map [] ⟨[⟨"nsB", "mrB", [⟨"sB"⟩]⟩], true⟩ (.secretObject ⟨"nsB", "sB"⟩) = [] :=
  (map_total_swallows_errors [] ⟨[⟨"nsB", "mrB", [⟨"sB"⟩]⟩], true⟩
    ⟨"nsB", "sB"⟩).2.2 rfl

/-- C9: requests are emitted per matching secret reference, not per matching
ManagedResource: a ManagedResource (unique for its identity in the cluster)
whose spec secret references list the changed Secret's name k times yields k
duplicate requests in the returned list. -/
theorem duplicate_requests_per_matching_ref (preds : List (ManagedResource → Bool))
    (st : ClusterState) (s : Secret) (mr : ManagedResource)
    (h : st.listFails = false) (hns : mr.ns = s.ns)
    (hpred : EvalGenericPredicate mr preds = true)
    (hident : st.managedResources.filter
        (fun x => x.ns == mr.ns && x.name == mr.name) = [mr]) :
    (Map preds st (.secretObject s)).count ⟨mr.ns, mr.name⟩ =
      (mr.secretRefs.filter (fun ref => ref.name == s.name)).length := by
  rw [count_Map preds st s _ h]
  exact sum_contrib_of_filter_singleton preds s mr hns hpred
    st.managedResources hident

theorem duplicate_requests_per_matching_ref_witness :
    (Map [] ⟨[⟨"nsC", "mrC", [⟨"sC"⟩, ⟨"other"⟩, ⟨"sC"⟩]⟩], false⟩
        (.secretObject ⟨"nsC", "sC"⟩)).count ⟨"nsC", "mrC"⟩ =
      ((⟨"nsC", "mrC", [⟨"sC"⟩, ⟨"other"⟩, ⟨"sC"⟩]⟩ :
        ManagedResource).secretRefs.filter (fun ref => ref.name == "sC")).length :=
  duplicate_requests_per_matching_ref [] ⟨[⟨"nsC", "mrC", [⟨"sC"⟩, ⟨"other"⟩, ⟨"sC"⟩]⟩], false⟩
    ⟨"nsC", "sC"⟩ ⟨"nsC", "mrC", [⟨"sC"⟩, ⟨"other"⟩, ⟨"sC"⟩]⟩ rfl rfl rfl (by decide)

/-- C10: the command registers the Secret watch mapper with a nil predicate
list, so secret-triggered mapping applies no predicate filtering: every
predicate evaluation trivially passes, and every ManagedResource in the
Secret's namespace referencing it by name is enqueued. -/
theorem secret_watch_unfiltered (st : ClusterState) (s : Secret)
    (mr : ManagedResource) (h : st.listFails = false)
    (hmem : mr ∈ st.managedResources) (hns : mr.ns = s.ns)
    (href : ∃ ref, ref ∈ mr.secretRefs ∧ ref.name = s.name) :
    (∀ mr0 : ManagedResource,
      EvalGenericPredicate mr0 secretWatchPredicates = true) ∧
    (⟨mr.ns, mr.name⟩ : Request) ∈
      Map secretWatchPredicates st (.secretObject s) := by
  refine ⟨fun _ => rfl, ?_⟩
  exact (mem_Map_iff secretWatchPredicates st s _ h).mpr
    ⟨mr, hmem, hns, rfl, href, rfl⟩

theorem secret_watch_unfiltered_witness :
    (⟨"nsD", "mrD"⟩ : Request) ∈
      Map secretWatchPredicates ⟨[⟨"nsD", "mrD", [⟨"sD"⟩]⟩], false⟩
        (.secretObject ⟨"nsD", "sD"⟩) :=
  (secret_watch_unfiltered ⟨[⟨"nsD", "mrD", [⟨"sD"⟩]⟩], false⟩ ⟨"nsD", "sD"⟩
      ⟨"nsD", "mrD", [⟨"sD"⟩]⟩ rfl (List.mem_singleton.mpr rfl) rfl
      ⟨⟨"sD"⟩, List.mem_singleton.mpr rfl, rfl⟩).2

/-- An environment in which the `KUBECONFIG` variable is set and loadable and
in-cluster config is also available: the two candidate fallback orders
disagree on it. -/
def envOrderCex : ConfigEnv :=
  { kubeconfigEnvVar := "/env/kubeconfig"
    buildConfigFromFlags := fun p => .ok ⟨p, 0, 0⟩
    inClusterConfig := .ok ⟨"in-cluster", 0, 0⟩
    currentUserHome := .ok "/home/user" }

/-- C2 counterexample: with no explicit path, a set `KUBECONFIG` variable and
an available in-cluster config, the code returns the environment-variable
config while the claimed order (in-cluster before environment variable) would
return the in-cluster config. -/
theorem getTargetConfig_order_counterexample :
    getTargetConfig envOrderCex "" = .ok ⟨"/env/kubeconfig", 0, 0⟩ ∧
    getTargetConfigSpecOrder envOrderCex "" = .ok ⟨"in-cluster", 0, 0⟩ ∧
    getTargetConfig envOrderCex "" ≠ getTargetConfigSpecOrder envOrderCex "" := by
  refine ⟨rfl, rfl, fun hcontr => ?_⟩
  rw [show getTargetConfig envOrderCex "" =
      .ok ⟨"/env/kubeconfig", 0, 0⟩ from rfl,
    show getTargetConfigSpecOrder envOrderCex "" =
      .ok ⟨"in-cluster", 0, 0⟩ from rfl] at hcontr
  simp at hcontr

/-- C2 (amended): `getTargetConfig` tries the credential sources in the order
explicit kubeconfig path, then the `KUBECONFIG` environment variable, then
in-cluster config, then the current user's `~/.kube/config`; a later source
is consulted only when every earlier one is unavailable. -/
theorem getTargetConfig_fallback_order (e : ConfigEnv) (p : String) :
    (0 < p.length → getTargetConfig e p = e.buildConfigFromFlags p) ∧
    (p.length = 0 → 0 < e.kubeconfigEnvVar.length →
      getTargetConfig e p = e.buildConfigFromFlags e.kubeconfigEnvVar) ∧
    (p.length = 0 → e.kubeconfigEnvVar.length = 0 → ∀ c,
      e.inClusterConfig = .ok c → getTargetConfig e p = .ok c) ∧
    (p.length = 0 → e.kubeconfigEnvVar.length = 0 →
      (∃ m, e.inClusterConfig = .error m) → ∀ home c,
      e.currentUserHome = .ok home →
      e.buildConfigFromFlags (home ++ "/.kube/config") = .ok c →
      getTargetConfig e p = .ok c) := by
  refine ⟨?_, ?_, ?_, ?_⟩
  · intro hp
    unfold getTargetConfig
    rw [if_pos hp]
  · intro hp henv
    unfold getTargetConfig
    rw [if_neg (by omega), if_pos henv]
  · intro hp henv c hc
    unfold getTargetConfig
    rw [if_neg (by omega), if_neg (by omega), hc]
  · rintro hp henv ⟨m, hm⟩ home c hh hb
    unfold getTargetConfig
    rw [if_neg (by omega), if_neg (by omega)]
    simp only [hm, hh, hb]

theorem getTargetConfig_fallback_order_witness :
    0 < ("/kc" : String).length ∧
    getTargetConfig envOrderCex "/kc" = envOrderCex.buildConfigFromFlags "/kc" :=
  ⟨by decide, (getTargetConfig_fallback_order envOrderCex "/kc").1 (by decide)⟩

/-- An environment whose kubeconfig loader reports operator-chosen rate
limits (QPS 5, Burst 7). -/
def envRateCex : ConfigEnv :=
  { kubeconfigEnvVar := ""
    buildConfigFromFlags := fun p => .ok ⟨p, 5, 7⟩
    inClusterConfig := .error "not in cluster"
    currentUserHome := .ok "/home/user" }

/-- C3 counterexample: even when the loaded config carries operator-chosen
rate limits (QPS 5, Burst 7), the created client's config has QPS 100 and
Burst 130 — the ceilings are overwritten with constants fixed in code, not
configurable. -/
theorem rate_limits_hardcoded_counterexample :
    envRateCex.buildConfigFromFlags "/kc" = .ok ⟨"/kc", 5, 7⟩ ∧
    getTargetClient envRateCex "/kc" = .ok ⟨"/kc", 100, 130⟩ :=
  ⟨rfl, rfl⟩

/-- C3 (amended): the target-cluster client is created with client-side rate
limiting whose ceilings are fixed in code: whenever `getTargetClient`
succeeds, the client's config has QPS 100 and Burst 130, regardless of the
environment or the kubeconfig path. -/
theorem getTargetClient_fixed_rate_limits (e : ConfigEnv) (p : String)
    (c : RestConfig) (h : getTargetClient e p = .ok c) :
    c.qps = 100 ∧ c.burst = 130 := by
  unfold getTargetClient at h
  cases hc : getTargetConfig e p with
  | error m =>
    rw [hc] at h
    cases h
  | ok c0 =>
    rw [hc] at h
    injection h with h
    rw [← h]
    exact ⟨rfl, rfl⟩

theorem getTargetClient_fixed_rate_limits_witness :
    (⟨"/kc", 100, 130⟩ : RestConfig).qps = 100 ∧
    (⟨"/kc", 100, 130⟩ : RestConfig).burst = 130 :=
  getTargetClient_fixed_rate_limits envRateCex "/kc" ⟨"/kc", 100, 130⟩ rfl

/-- An environment with no explicit path, a set but unloadable `KUBECONFIG`
variable, and an available in-cluster config. -/
def envErrCex : ConfigEnv :=
  { kubeconfigEnvVar := "/bad/env"
    buildConfigFromFlags := fun p =>
      if p == "/bad/env" then .error "no such file" else .ok ⟨p, 0, 0⟩
    inClusterConfig := .ok ⟨"in-cluster", 0, 0⟩
    currentUserHome := .ok "/home/user" }

/-- C5 counterexample: with a set but unloadable `KUBECONFIG` variable,
`getTargetConfig` returns that loader's error even though a later source
(in-cluster config) would produce a config — so it errs although not every
source in the chain fails. -/
theorem getTargetConfig_error_counterexample :
    envErrCex.inClusterConfig = .ok ⟨"in-cluster", 0, 0⟩ ∧
    getTargetConfig envErrCex "" = .error "no such file" :=
  ⟨rfl, rfl⟩

/-- C5 (amended): `getTargetConfig` returns an error iff the first consulted
terminal source fails — a non-empty explicit path whose load fails, else a
non-empty `KUBECONFIG` variable whose load fails, else both in-cluster config
and the home-directory kubeconfig fail; in particular a non-empty explicit
path's result, config or error, is returned immediately with no other source
consulted. -/
theorem getTargetConfig_error_iff (e : ConfigEnv) (p : String) :
    ((∃ m, getTargetConfig e p = .error m) ↔
      (0 < p.length ∧ ∃ m, e.buildConfigFromFlags p = .error m) ∨
      (p.length = 0 ∧ 0 < e.kubeconfigEnvVar.length ∧
        ∃ m, e.buildConfigFromFlags e.kubeconfigEnvVar = .error m) ∨
      (p.length = 0 ∧ e.kubeconfigEnvVar.length = 0 ∧
        (∃ m, e.inClusterConfig = .error m) ∧
        ((∃ m, e.currentUserHome = .error m) ∨
          ∃ home, e.currentUserHome = .ok home ∧
            ∃ m, e.buildConfigFromFlags (home ++ "/.kube/config") = .error m))) ∧
    (0 < p.length → getTargetConfig e p = e.buildConfigFromFlags p) := by
  constructor
  · unfold getTargetConfig
    by_cases hp : 0 < p.length
    · rw [if_pos hp]
      constructor
      · rintro ⟨m, hm⟩
        exact Or.inl ⟨hp, m, hm⟩
      · rintro (⟨-, m, hm⟩ | ⟨hp0, -⟩ | ⟨hp0, -⟩)
        · exact ⟨m, hm⟩
        · omega
        · omega
    · have hp0 : p.length = 0 := by omega
      rw [if_neg hp]
      by_cases he : 0 < e.kubeconfigEnvVar.length
      · rw [if_pos he]
        constructor
        · rintro ⟨m, hm⟩
          exact Or.inr (Or.inl ⟨hp0, he, m, hm⟩)
        · rintro (⟨hc, -⟩ | ⟨-, -, m, hm⟩ | ⟨-, he0, -⟩)
          · omega
          · exact ⟨m, hm⟩
          · omega
      · have he0 : e.kubeconfigEnvVar.length = 0 := by omega
        rw [if_neg he]
        cases hic : e.inClusterConfig with
        | ok c =>
          constructor
          · rintro ⟨m, hm⟩
            exact Except.noConfusion hm
          · rintro (⟨hc, -⟩ | ⟨-, he', -⟩ | ⟨-, -, ⟨m, hm⟩, -⟩)
            · omega
            · omega
            · exact Except.noConfusion hm
        | error mi =>
          cases hu : e.currentUserHome with
          | error mu =>
            constructor
            · intro _
              exact Or.inr (Or.inr ⟨hp0, he0, ⟨mi, rfl⟩, Or.inl ⟨mu, rfl⟩⟩)
            · intro _
              exact ⟨"could not create config for cluster", rfl⟩
          | ok home =>
            cases hb : e.buildConfigFromFlags (home ++ "/.kube/config") with
            | ok c =>
              constructor
              · rintro ⟨m, hm⟩
                simp only [hb] at hm
                exact Except.noConfusion hm
              · rintro (⟨hc, -⟩ | ⟨-, he', -⟩ |
                  ⟨-, -, -, ⟨m, hm⟩ | ⟨home', hh', m, hm⟩⟩)
                · omega
                · omega
                · exact Except.noConfusion hm
                · injection hh' with hh'
                  rw [← hh'] at hm
                  rw [hb] at hm
                  exact Except.noConfusion hm
            | error mb =>
              constructor
              · intro _
                exact Or.inr (Or.inr
                  ⟨hp0, he0, ⟨mi, rfl⟩, Or.inr ⟨home, rfl, mb, hb⟩⟩)
              · intro _
                refine ⟨"could not create config for cluster", ?_⟩
                simp only [hb]
  · intro hp
    unfold getTargetConfig
    rw [if_pos hp]

/-- An environment in which every credential source fails. -/
def envAllFail : ConfigEnv :=
  { kubeconfigEnvVar := ""
    buildConfigFromFlags := fun _ => .error "no file"
    inClusterConfig := .error "not in cluster"
    currentUserHome := .error "no user" }

theorem getTargetConfig_error_iff_witness :
    ∃ m, getTargetConfig envAllFail "" = .error m :=
  (getTargetConfig_error_iff envAllFail "").1.mpr
    (Or.inr (Or.inr ⟨rfl, rfl, ⟨"not in cluster", rfl⟩,
      Or.inl ⟨"no user", rfl⟩⟩))

/-- C6: the binary registers exactly the six flags the spec lists — the
leader-election toggle and namespace, the sync period, the target kubeconfig
path, the max-concurrent-workers count and the namespace filter — and wires
the sync period and namespace into the manager options and the
max-concurrent-workers value into the controller options as the reconcile
worker bound. -/
theorem cli_flags_and_wiring :
    registeredFlags.map Prod.fst =
      ["leader-election", "leader-election-namespace", "sync-period",
       "target-kubeconfig", "max-concurrent-workers", "namespace"] ∧
    ∀ f : Flags,
      (managerOptions f).syncPeriod = f.syncPeriod ∧
      (managerOptions f).nsOpt = f.namespaceFlag ∧
      (controllerOptions f).maxConcurrentReconciles = f.maxConcurrentWorkers :=
  ⟨rfl, fun _ => ⟨rfl, rfl, rfl⟩⟩

end GRM
